import Mathlib

/-!
Verification development for the garmin-pr-plan repository.

The Python source is shallowly embedded: Python floats are modelled as exact
rationals (finite values are not rounded to the nearest double, though the
overflow of a string conversion to infinity is modelled), Python exceptions
as the error case of an explicit result type, and Python dictionaries as
structures with optional fields.  Strings are modelled over the ASCII
fragment: non-ASCII decimal digits and exotic whitespace accepted by Python
number conversion lie outside the modelled alphabet.  Remote calls made by
the uploader are abstracted as an environment of deterministic call results
indexed by workout position and attempt number.

Rational arithmetic is written with the mkRat-style operations qadd, qmul,
qinv and qdiv so that every definition evaluates by kernel reduction; the
bridge theorems below identify them with the field operations of ℚ.
-/

deriving instance DecidableEq for Except

/-- Addition on ℚ in explicitly normalising form. -/
def qadd (a b : ℚ) : ℚ :=
  Rat.divInt (a.num * b.den + b.num * a.den) ((a.den : ℤ) * (b.den : ℤ))

/-- Multiplication on ℚ in explicitly normalising form. -/
def qmul (a b : ℚ) : ℚ :=
  Rat.divInt (a.num * b.num) ((a.den : ℤ) * (b.den : ℤ))

/-- Inverse on ℚ in explicitly normalising form. -/
def qinv (a : ℚ) : ℚ :=
  Rat.divInt a.den a.num

/-- Division on ℚ in explicitly normalising form. -/
def qdiv (a b : ℚ) : ℚ :=
  qmul a (qinv b)

/-- Python str.strip on a character list: drop whitespace on both ends. -/
def pyStripChars (l : List Char) : List Char :=
  ((l.dropWhile Char.isWhitespace).reverse.dropWhile Char.isWhitespace).reverse

/-- Numeric value of a digit string (most significant first). -/
def natOfDigits (l : List Char) : ℕ :=
  l.foldl (fun n c => n * 10 + (c.toNat - 48)) 0

/-- Significand validity and value shared by Python float() and the float()
calls on regex groups of the source: every character a digit or a dot, at
most one dot, at least one digit; the exact rational value otherwise none
(Python raises ValueError).  On a group matched by the character class of
digits and dots the all-characters check is vacuous. -/
def floatOfNumDot (l : List Char) : Option ℚ :=
  if l.all (fun c => c.isDigit || c = '.') && l.count '.' ≤ 1 && l.any Char.isDigit then
    let ip := l.takeWhile (fun c => c ≠ '.')
    let fp := (l.dropWhile (fun c => c ≠ '.')).drop 1
    some (qadd (mkRat (natOfDigits ip) 1) (mkRat (natOfDigits fp) (10 ^ fp.length)))
  else none

/-- Underscore validation and removal of Python numeric string conversion:
every underscore must be directly surrounded by digits; none models the
ValueError raised otherwise. -/
def remUnderscores : List Char → Option (List Char)
  | [] => some []
  | [c] => if c = '_' then none else some [c]
  | c :: d :: rest =>
    if c = '_' then none
    else if d = '_' then
      if c.isDigit then
        match rest with
        | e :: rest2 =>
          if e.isDigit then (remUnderscores (e :: rest2)).map (fun r => c :: r) else none
        | [] => none
      else none
    else (remUnderscores (d :: rest)).map (fun r => c :: r)

/-- Split a numeric body at its first exponent marker e or E; a second
marker is left inside the exponent part and rejected by its digit check. -/
def splitAtE : List Char → List Char × Option (List Char)
  | [] => ([], none)
  | c :: rest =>
    if c = 'e' ∨ c = 'E' then ([], some rest)
    else (c :: (splitAtE rest).1, (splitAtE rest).2)

/-- Ten to the number named by a digit string, computed digit by digit so
that every exponentiation step is small (see pow10Digits_eq). -/
def pow10Digits (l : List Char) : ℕ :=
  l.foldl (fun acc c => acc ^ 10 * 10 ^ (c.toNat - 48)) 1

/-- The double overflow boundary 2 ^ 1024 - 2 ^ 970, the midpoint above the
largest finite double, written with nested powers so that it evaluates with
shallow recursion (see dblOverflowBound_eq). -/
def dblOverflowBound : ℕ :=
  (2 ^ 32) ^ 32 - (2 ^ 32) ^ 30 * 2 ^ 10

/-- Whether an exact value overflows the conversion to a double: under
round to nearest even, strtod yields infinity exactly when the magnitude
is at least the boundary. -/
def dblOverflows (q : ℚ) : Bool :=
  decide (dblOverflowBound * q.den ≤ q.num.natAbs)

/-- Result of Python float() on a string: a finite value (kept exact rather
than rounded to the nearest double), a signed infinity, or nan. -/
inductive PyFloatVal where
  | finite (q : ℚ)
  | inf (neg : Bool)
  | nan
deriving DecidableEq, Repr

/-- The unsigned numeric body of Python float(): significand with optional
exponent part of an optional sign and a nonempty digit run; exact value. -/
def pyFloatBody (l : List Char) : Option ℚ :=
  match floatOfNumDot (splitAtE l).1 with
  | none => none
  | some m =>
    match (splitAtE l).2 with
    | none => some m
    | some ex =>
      match ex with
      | '-' :: r =>
        if r.isEmpty then none
        else if r.all Char.isDigit then some (qdiv m (mkRat (pow10Digits r) 1)) else none
      | '+' :: r =>
        if r.isEmpty then none
        else if r.all Char.isDigit then some (qmul m (mkRat (pow10Digits r) 1)) else none
      | r =>
        if r.isEmpty then none
        else if r.all Char.isDigit then some (qmul m (mkRat (pow10Digits r) 1)) else none

/-- Python float() on a string: strip whitespace, validate and drop
underscores, read an optional sign, then either a case-insensitive inf,
infinity or nan form, or a numeric body; a finite result whose magnitude
reaches the double range boundary becomes the corresponding infinity, as in
strtod.  Finite values are kept exact instead of rounded to the nearest
double. -/
def pyFloat (l0 : List Char) : Option PyFloatVal :=
  match remUnderscores (pyStripChars l0) with
  | none => none
  | some l1 =>
    let neg : Bool := match l1 with
      | '-' :: _ => true
      | _ => false
    let body : List Char := match l1 with
      | '-' :: r => r
      | '+' :: r => r
      | r => r
    let lowBody := body.map Char.toLower
    if lowBody = ['i','n','f'] ∨ lowBody = ['i','n','f','i','n','i','t','y'] then
      some (PyFloatVal.inf neg)
    else if lowBody = ['n','a','n'] then some PyFloatVal.nan
    else
      match pyFloatBody body with
      | none => none
      | some m =>
        let q : ℚ := if neg then -m else m
        if dblOverflows q then some (PyFloatVal.inf neg) else some (PyFloatVal.finite q)

/-- Python int() on a string: strip, validate and drop underscores, optional
sign, nonempty digit run; none models the ValueError raised on anything
else. -/
def pyInt (l0 : List Char) : Option ℤ :=
  match remUnderscores (pyStripChars l0) with
  | none => none
  | some l1 =>
    match l1 with
    | '-' :: rest =>
      if rest.isEmpty then none
      else if rest.all Char.isDigit then some (-(natOfDigits rest : ℤ)) else none
    | '+' :: rest =>
      if rest.isEmpty then none
      else if rest.all Char.isDigit then some ((natOfDigits rest : ℤ)) else none
    | _ =>
      if l1.isEmpty then none
      else if l1.all Char.isDigit then some ((natOfDigits l1 : ℤ)) else none

/-- Python int() applied to a float: truncation toward zero. -/
def pyTrunc (q : ℚ) : ℤ :=
  q.num.tdiv q.den

/-- Python str.split on a colon. -/
def splitOnColon : List Char → List (List Char)
  | [] => [[]]
  | c :: rest =>
    if c = ':' then [] :: splitOnColon rest
    else
      match splitOnColon rest with
      | h :: t => (c :: h) :: t
      | [] => [[c]]

/-- Shared shape of the two duration regexes of the source: a nonempty
greedy run of digits and dots, optional whitespace, then the rest of the
string, which the caller compares against a unit list (the regex anchors
the unit alternation at end of string). -/
def numUnitSplit (l : List Char) : Option (List Char × List Char) :=
  let num := l.takeWhile (fun c => c.isDigit || c = '.')
  if num.isEmpty then none
  else some (num, (l.drop num.length).dropWhile Char.isWhitespace)

/-- Unit alternation of the distance regex of _parse_duration. -/
def distUnits : List (List Char) :=
  [['m'], ['k','m'], ['m','i'], ['m','i','l','e'], ['m','i','l','e','s']]

/-- Unit alternation of the time regex of _parse_duration. -/
def timeUnits : List (List Char) :=
  [['m','i','n'], ['m','i','n','s'], ['m','i','n','u','t','e'],
   ['m','i','n','u','t','e','s'], ['s','e','c'], ['s','e','c','s'],
   ['s','e','c','o','n','d'], ['s','e','c','o','n','d','s'], ['s']]

/-- Units treated as seconds by _parse_duration. -/
def secUnits : List (List Char) :=
  [['s','e','c'], ['s','e','c','s'], ['s','e','c','o','n','d'],
   ['s','e','c','o','n','d','s'], ['s']]

/-- Match of the distance regex of _parse_duration. -/
def distMatch (l : List Char) : Option (List Char × List Char) :=
  match numUnitSplit l with
  | some (num, rest) => if distUnits.contains rest then some (num, rest) else none
  | none => none

/-- Match of the time-unit regex of _parse_duration. -/
def timeMatch (l : List Char) : Option (List Char × List Char) :=
  match numUnitSplit l with
  | some (num, rest) => if timeUnits.contains rest then some (num, rest) else none
  | none => none

/-- Result of _parse_duration: the condition-type dictionary and the value
(the source pairs an id/key dictionary with a float or int value). -/
structure DurRes where
  id : ℕ
  key : String
  value : ℚ
deriving DecidableEq, Repr

/-- Distance duration condition as built by _parse_duration. -/
def DistanceCond (meters : ℚ) : DurRes :=
  ⟨3, "distance", meters⟩

/-- Time duration condition as built by _parse_duration. -/
def TimeCond (seconds : ℤ) : DurRes :=
  ⟨2, "time", (seconds : ℚ)⟩

/-- Normalisation performed first by _parse_duration:
str(duration).strip().lower(). -/
def normDur (s : String) : List Char :=
  (pyStripChars s.toList).map Char.toLower

/-- GarminClient._parse_duration.  The error case models an uncaught Python
exception: only the final bare-number branch guards its conversion, and only
against ValueError, which covers both a float() parse failure and int(nan);
int() of an infinite float() result raises OverflowError there, which the
guard does not catch. -/
def parse_duration (s : String) : Except String DurRes :=
  let l := normDur s
  match distMatch l with
  | some (num, unit) =>
    match floatOfNumDot num with
    | none => Except.error ("ValueError")
    | some v =>
      let meters :=
        if unit = ['m'] then v
        else if unit = ['k','m'] then qmul v (mkRat 1000 1)
        else if distUnits.contains unit then qmul v (mkRat 160934 100)
        else v
      Except.ok (DistanceCond meters)
  | none =>
  match timeMatch l with
  | some (num, unit) =>
    match floatOfNumDot num with
    | none => Except.error ("ValueError")
    | some v =>
      let total : ℚ := if secUnits.contains unit then v else qmul v (mkRat 60 1)
      Except.ok (TimeCond (pyTrunc total))
  | none =>
  if l.contains ':' then
    match splitOnColon l with
    | [p0, p1] =>
      match pyInt p0, pyInt p1 with
      | some m, some sec => Except.ok (TimeCond (m * 60 + sec))
      | _, _ => Except.error ("ValueError")
    | p0 :: _ =>
      match pyInt p0 with
      | some m => Except.ok (TimeCond (m * 60))
      | none => Except.error ("ValueError")
    | [] => Except.error ("IndexError")
  else
    match pyFloat l with
    | some (PyFloatVal.finite q) => Except.ok (TimeCond (pyTrunc q * 60))
    | some (PyFloatVal.inf _) => Except.error ("OverflowError")
    | some PyFloatVal.nan => Except.ok (TimeCond 600)
    | none => Except.ok (TimeCond 600)

/-- Substring test, as Python `in` on strings. -/
def hasSub (hay needle : List Char) : Bool :=
  match hay with
  | [] => needle.isEmpty
  | _ :: t => needle.isPrefixOf hay || hasSub t needle

/-- Python str.lower on a string. -/
def pyLower (s : String) : String :=
  String.mk (s.toList.map Char.toLower)

/-- Unit suffix of the pace regex of _parse_target. -/
inductive PaceUnit where
  | mi
  | km
deriving DecidableEq, Repr

/-- Match of the pace regex of _parse_target: one or more digits, a colon,
one or more digits, then an optional slash-optional mi or km suffix, anchored
at both ends.  Returns the minutes digits value, the seconds digits value and
the unit group. -/
def paceMatch (l : List Char) : Option (ℕ × ℕ × Option PaceUnit) :=
  let d1 := l.takeWhile Char.isDigit
  if d1.isEmpty then none
  else
    match l.drop d1.length with
    | ':' :: rest2 =>
      let d2 := rest2.takeWhile Char.isDigit
      if d2.isEmpty then none
      else
        let tail := rest2.drop d2.length
        if tail = [] then some (natOfDigits d1, natOfDigits d2, none)
        else if tail = ['/','m','i'] || tail = ['m','i'] then
          some (natOfDigits d1, natOfDigits d2, some PaceUnit.mi)
        else if tail = ['/','k','m'] || tail = ['k','m'] then
          some (natOfDigits d1, natOfDigits d2, some PaceUnit.km)
        else none
    | _ => none

/-- Result of _parse_target: the target-type dictionary and the low/high
value dictionary (None is modelled as none). -/
structure TargetRes where
  id : ℕ
  key : String
  low : Option ℚ
  high : Option ℚ
deriving DecidableEq, Repr

/-- The no-target result of _parse_target. -/
def NoTargetRes : TargetRes :=
  ⟨1, "no.target", none, none⟩

/-- The pace-zone result of _parse_target. -/
def PaceRangeRes (lo hi : ℚ) : TargetRes :=
  ⟨6, "pace.zone", some lo, some hi⟩

/-- The heart-rate-zone result of _parse_target. -/
def HeartRateZone (zone : ℕ) : TargetRes :=
  ⟨4, "heart.rate.zone", some (mkRat zone 1), some (mkRat zone 1)⟩

/-- GarminClient._parse_target.  The error case models the uncaught
ZeroDivisionError raised on a pace of zero total seconds. -/
def parse_target (t : String) : Except String TargetRes :=
  if t = "" ∨ pyLower t ∈ (["open", "jog", "easy"] : List String) then
    Except.ok NoTargetRes
  else
    match paceMatch (pyStripChars t.toList) with
    | some (m, s, u) =>
      let total : ℕ := m * 60 + s
      if total = 0 then Except.error ("ZeroDivisionError")
      else
        let mps : ℚ :=
          if u = some PaceUnit.km ∨ (u = none ∧ m < 10) then
            qdiv (mkRat 1000 1) (mkRat total 1)
          else qdiv (mkRat 160934 100) (mkRat total 1)
        Except.ok (PaceRangeRes (qmul mps (mkRat 105 100)) (qmul mps (mkRat 95 100)))
    | none =>
      if hasSub (t.toList.map Char.toLower) ['z','o','n','e'] then
        match t.toList.find? Char.isDigit with
        | some c => Except.ok (HeartRateZone (c.toNat - 48))
        | none => Except.ok NoTargetRes
      else Except.ok NoTargetRes

/-- Step-type dictionary entry of GarminClient._get_step_type. -/
structure StepTypeRes where
  id : ℕ
  key : String
deriving DecidableEq, Repr

/-- GarminClient._get_step_type: fixed lookup with interval as default. -/
def get_step_type (intensity : String) : StepTypeRes :=
  if intensity = "warmup" then ⟨1, "warmup"⟩
  else if intensity = "cooldown" then ⟨2, "cooldown"⟩
  else if intensity = "rest" then ⟨4, "recovery"⟩
  else ⟨3, "interval"⟩

/-- One free-text step of the generated plan, with the dictionary keys read
by _build_workout_steps as optional fields. -/
structure RawStep where
  intensity : Option String
  duration : Option String
  target : Option String
deriving DecidableEq, Repr

/-- One structured step as built by _build_workout_steps. -/
structure EncodedStep where
  stepOrder : ℕ
  stepTypeId : ℕ
  stepTypeKey : String
  conditionTypeId : ℕ
  conditionTypeKey : String
  endConditionValue : ℚ
  targetTypeId : ℕ
  targetTypeKey : String
  targetValueOne : Option ℚ
  targetValueTwo : Option ℚ
deriving DecidableEq, Repr

/-- Body of the loop of GarminClient._build_workout_steps at 0-based
position i. -/
def buildOneStep (i : ℕ) (step : RawStep) : Except String EncodedStep := do
  let st := get_step_type (step.intensity.getD ("active"))
  let dc ← parse_duration (step.duration.getD ("10:00"))
  let tc ← parse_target (step.target.getD ("Open"))
  Except.ok
    { stepOrder := i + 1
      stepTypeId := st.id
      stepTypeKey := st.key
      conditionTypeId := dc.id
      conditionTypeKey := dc.key
      endConditionValue := dc.value
      targetTypeId := tc.id
      targetTypeKey := tc.key
      targetValueOne := tc.low
      targetValueTwo := tc.high }

/-- The enumerate loop of GarminClient._build_workout_steps from position
i onward. -/
def buildStepsFrom (i : ℕ) : List RawStep → Except String (List EncodedStep)
  | [] => Except.ok []
  | step :: rest => do
    let es ← buildOneStep i step
    let tail ← buildStepsFrom (i + 1) rest
    Except.ok (es :: tail)

/-- GarminClient._build_workout_steps.  The error case models an uncaught
exception escaping from _parse_duration or _parse_target. -/
def build_workout_steps (steps : List RawStep) : Except String (List EncodedStep) :=
  buildStepsFrom 0 steps

/-- One running-activity record as consumed by analyze_fitness, with the
three dictionary keys it reads. -/
structure Activity where
  distance_km : ℚ
  avg_pace_min_km : Option ℚ
  avg_hr : Option ℚ
deriving DecidableEq, Repr

/-- Result dictionary of analyze_fitness: keys that may be absent are
optional fields. -/
structure Metrics where
  has_data : Bool
  message : Option String
  total_runs : Option ℕ
  avg_distance_km : Option ℚ
  total_distance_km : Option ℚ
  avg_pace_min_km : Option ℚ
  avg_hr : Option ℚ
  recent_runs : Option (List Activity)
deriving DecidableEq, Repr

/-- The Python comprehension over optional values filtered by truthiness:
None and 0 are both falsy and dropped. -/
def listTruthy : List (Option ℚ) → List ℚ
  | [] => []
  | none :: rest => listTruthy rest
  | some q :: rest => if q = 0 then listTruthy rest else q :: listTruthy rest

/-- Sum of a rational list in explicitly normalising form, folded from the
left as the Python builtin sum does. -/
def qsum (l : List ℚ) : ℚ :=
  l.foldl qadd 0

/-- coach.analyze_fitness. -/
def analyze_fitness (activities : List Activity) : Metrics :=
  if activities.isEmpty then
    { has_data := false
      message := some ("No running activities found")
      total_runs := none
      avg_distance_km := none
      total_distance_km := none
      avg_pace_min_km := none
      avg_hr := none
      recent_runs := none }
  else
    let dists := activities.map Activity.distance_km
    let paces := listTruthy (activities.map Activity.avg_pace_min_km)
    let hrs := listTruthy (activities.map Activity.avg_hr)
    { has_data := true
      message := none
      total_runs := some activities.length
      avg_distance_km := some (qdiv (qsum dists) (mkRat activities.length 1))
      total_distance_km := some (qsum dists)
      avg_pace_min_km :=
        if paces = [] then none
        else some (qdiv (qsum paces) (mkRat paces.length 1))
      avg_hr :=
        if hrs = [] then none
        else some (qdiv (qsum hrs) (mkRat hrs.length 1))
      recent_runs := some (activities.take 10) }

/-- One workout entry of the training plan as read by push_all_workouts:
the name and date dictionary keys (absent keys are none). -/
structure Workout where
  name : Option String
  date : Option String
deriving DecidableEq, Repr

/-- Python truthiness of an optional workout identifier (None and 0 are
falsy). -/
def truthyId (i : Option ℤ) : Bool :=
  match i with
  | none => false
  | some n => n ≠ 0

/-- Python truthiness of an optional string (None and the empty string are
falsy). -/
def truthyStr (s : Option String) : Bool :=
  match s with
  | none => false
  | some v => v ≠ ""

/-- Remote-call events observable in one run of push_all_workouts: a
create_workout call or a schedule_workout call, tagged with the 0-based
workout position and the attempt number. -/
inductive PushEv where
  | create (wi attempt : ℕ)
  | sched (wi attempt : ℕ)
deriving DecidableEq, Repr

/-- Whether an event is a schedule call. -/
def PushEv.isSched : PushEv → Bool
  | PushEv.sched _ _ => true
  | _ => false

/-- Whether an event is a create call for workout position wi. -/
def PushEv.isCreateFor (wi : ℕ) : PushEv → Bool
  | PushEv.create w _ => w = wi
  | _ => false

/-- The remote collaborators of push_all_workouts, abstracted as the
deterministic outcome of each call: create_workout returns the optional
workout identifier of the uploaded workout or raises, schedule_workout
returns nothing or raises, both indexed by workout position and attempt. -/
structure PushEnv where
  create : ℕ → ℕ → Except String (Option ℤ)
  schedule : ℕ → ℕ → Except String Unit

/-- Whether a call outcome is an exception. -/
def exFails {α : Type} : Except String α → Bool
  | Except.error _ => true
  | Except.ok _ => false

/-- The message of a failing call outcome. -/
def errMsgOf {α : Type} : Except String α → String
  | Except.error m => m
  | Except.ok _ => ""

/-- One iteration of the retry loop of push_all_workouts: the try body of
attempt a for the workout at position wi, paired with the remote calls it
issues.  The schedule call happens only when the create result and the date
are both truthy. -/
def attemptOnce (env : PushEnv) (wi a : ℕ) (w : Workout) :
    Except String Unit × List PushEv :=
  match env.create wi a with
  | Except.error e => (Except.error e, [PushEv.create wi a])
  | Except.ok wid =>
    if truthyId wid && truthyStr w.date then
      match env.schedule wi a with
      | Except.error e => (Except.error e, [PushEv.create wi a, PushEv.sched wi a])
      | Except.ok _ => (Except.ok (), [PushEv.create wi a, PushEv.sched wi a])
    else (Except.ok (), [PushEv.create wi a])

/-- The retry loop of push_all_workouts over the listed attempt numbers:
returns the success flag, the failure entries appended (the failure is
recorded only when the failing attempt number is 2) and the remote calls
issued. -/
def runAttempts (env : PushEnv) (wi : ℕ) (w : Workout) :
    List ℕ → Bool × List (String × String) × List PushEv
  | [] => (false, [], [])
  | a :: rest =>
    match attemptOnce env wi a w with
    | (Except.ok _, evs) => (true, [], evs)
    | (Except.error e, evs) =>
      ((runAttempts env wi w rest).1,
       (if a = 2 then [(w.name.getD ("Unknown"), e)] else [])
         ++ (runAttempts env wi w rest).2.1,
       evs ++ (runAttempts env wi w rest).2.2)

/-- The per-workout body of push_all_workouts: range(3) attempts. -/
def runWorkout (env : PushEnv) (wi : ℕ) (w : Workout) :
    Bool × List (String × String) × List PushEv :=
  runAttempts env wi w [0, 1, 2]

/-- The workout loop of push_all_workouts from position wi onward:
created count, failure list in order, and remote calls issued. -/
def pushLoop (env : PushEnv) (wi : ℕ) :
    List Workout → ℕ × List (String × String) × List PushEv
  | [] => (0, [], [])
  | w :: rest =>
    ((if (runWorkout env wi w).1 then 1 else 0) + (pushLoop env (wi + 1) rest).1,
     (runWorkout env wi w).2.1 ++ (pushLoop env (wi + 1) rest).2.1,
     (runWorkout env wi w).2.2 ++ (pushLoop env (wi + 1) rest).2.2)

/-- The observable outcome of one run of push_all_workouts over a plan:
the created count, the failed list the source accumulates and reports to
the console, and the remote calls issued. -/
def pushOutcome (env : PushEnv) (plan : List Workout) :
    ℕ × List (String × String) × List PushEv :=
  pushLoop env 0 plan

/-- GarminClient.push_all_workouts: checks the session handle, runs the
workout loop, and returns created_count only. -/
def push_all_workouts (auth : Bool) (env : PushEnv) (plan : List Workout) :
    Except String ℕ :=
  if auth then Except.ok (pushOutcome env plan).1
  else Except.error ("Not authenticated")

/-- Environment in which every create call fails with message boomA. -/
def envFailA : PushEnv :=
  ⟨fun _ _ => Except.error ("boomA"), fun _ _ => Except.ok ()⟩

/-- Environment in which every create call fails with message boomB. -/
def envFailB : PushEnv :=
  ⟨fun _ _ => Except.error ("boomB"), fun _ _ => Except.ok ()⟩

/-- Environment in which every create call succeeds with identifier None. -/
def envOkNone : PushEnv :=
  ⟨fun _ _ => Except.ok none, fun _ _ => Except.ok ()⟩

/-- Value of the first digit character of a list, 0 when there is none
(re.search of a single digit in _parse_target). -/
def firstDigitVal (l : List Char) : ℕ :=
  match l.find? Char.isDigit with
  | some c => c.toNat - 48
  | none => 0

/-- Modelled from the spec: the arithmetic mean of the pace field over
exactly those records whose pace field is defined, absent when no record
has a defined pace.  This is the comparison definition for the claim that
the summarizer excludes only undefined paces; the source definition is
analyze_fitness. -/
def specAvgPaceDefined (activities : List Activity) : Option ℚ :=
  let ps := activities.filterMap Activity.avg_pace_min_km
  if ps = [] then none
  else some (qdiv (qsum ps) (mkRat ps.length 1))


/-! Bridge theorems: the explicitly normalising rational operations agree
with the field operations of ℚ. -/

theorem dblOverflowBound_eq : dblOverflowBound = 2 ^ 1024 - 2 ^ 970 := by
  rw [dblOverflowBound, ← pow_mul, ← pow_mul, ← pow_add]

theorem pow10Digits_aux (l : List Char) : ∀ n : ℕ,
    l.foldl (fun acc c => acc ^ 10 * 10 ^ (c.toNat - 48)) (10 ^ n)
      = 10 ^ (l.foldl (fun m c => m * 10 + (c.toNat - 48)) n) := by
  induction l with
  | nil => intro n; rfl
  | cons c rest ih =>
    intro n
    simp only [List.foldl_cons]
    rw [← pow_mul, ← pow_add]
    exact ih (n * 10 + (c.toNat - 48))

theorem pow10Digits_eq (l : List Char) : pow10Digits l = 10 ^ natOfDigits l := by
  simpa [pow10Digits, natOfDigits] using pow10Digits_aux l 0

theorem qadd_eq (a b : ℚ) : qadd a b = a + b := by
  conv_rhs => rw [← Rat.num_divInt_den a, ← Rat.num_divInt_den b]
  rw [Rat.divInt_add_divInt _ _ (by exact_mod_cast a.den_nz) (by exact_mod_cast b.den_nz),
    qadd]

theorem qmul_eq (a b : ℚ) : qmul a b = a * b := by
  conv_rhs => rw [← Rat.num_divInt_den a, ← Rat.num_divInt_den b]
  rw [Rat.divInt_mul_divInt', qmul]

theorem qinv_eq (a : ℚ) : qinv a = a⁻¹ := by
  rw [Rat.inv_def', qinv]

theorem qdiv_eq (a b : ℚ) : qdiv a b = a / b := by
  rw [qdiv, qmul_eq, qinv_eq, div_eq_mul_inv]

theorem mkRat_eq_div' (n : ℤ) (d : ℕ) : mkRat n d = (n : ℚ) / (d : ℚ) := by
  rw [Rat.mkRat_eq_divInt, Rat.divInt_eq_div]
  push_cast
  rfl

theorem qdiv_natCast (x : ℚ) (n : ℕ) : qdiv x (mkRat n 1) = x / (n : ℚ) := by
  rw [qdiv_eq, mkRat_eq_div']
  push_cast
  rw [div_one]

theorem foldl_qadd_eq (l : List ℚ) : ∀ a : ℚ, l.foldl qadd a = a + l.sum := by
  induction l with
  | nil => intro a; simp
  | cons x xs ih => intro a; simp [List.foldl_cons, ih, qadd_eq, add_assoc]

theorem qsum_eq (l : List ℚ) : qsum l = l.sum := by
  simp [qsum, foldl_qadd_eq]

/-! List facts about the truthiness filter of the summarizer. -/

theorem listTruthy_eq (l : List (Option ℚ)) :
    listTruthy l = (l.filterMap id).filter (fun q => decide (q ≠ 0)) := by
  induction l with
  | nil => rfl
  | cons o rest ih =>
    cases o with
    | none => simp [listTruthy, ih]
    | some q =>
      by_cases hq : q = 0
      · simp [listTruthy, hq, ih]
      · simp [listTruthy, hq, ih]

theorem truthyFilter_nil_iff (f : Activity → Option ℚ) (acts : List Activity) :
    (acts.filterMap f).filter (fun q => decide (q ≠ 0)) = []
      ↔ ∀ a ∈ acts, f a = none ∨ f a = some 0 := by
  rw [List.filter_eq_nil_iff]
  constructor
  · intro H a ha
    cases hf : f a with
    | none => exact Or.inl rfl
    | some q =>
      have hq : q = 0 := by simpa using H q (List.mem_filterMap.2 ⟨a, ha, hf⟩)
      subst hq
      exact Or.inr rfl
  · intro H q hq
    obtain ⟨a, ha, hf⟩ := List.mem_filterMap.1 hq
    rcases H a ha with h | h
    · rw [h] at hf; cases hf
    · rw [h] at hf
      injection hf with hh
      simp [← hh]

theorem any_of_find?_some {l : List Char} {c : Char}
    (h : l.find? Char.isDigit = some c) : l.any Char.isDigit = true := by
  exact List.any_eq_true.2 ⟨c, List.mem_of_find?_eq_some h, List.find?_some h⟩

theorem any_of_find?_none {l : List Char}
    (h : l.find? Char.isDigit = none) : l.any Char.isDigit = false := by
  rw [List.find?_eq_none] at h
  cases hav : l.any Char.isDigit
  · rfl
  · obtain ⟨x, hx, hpx⟩ := List.any_eq_true.1 hav
    exact absurd hpx (by simpa using h x hx)

/-! Helper theorems about the uploader loop. -/

theorem attemptOnce_head (env : PushEnv) (wi a : ℕ) (w : Workout) :
    ∃ t, (attemptOnce env wi a w).2 = PushEv.create wi a :: t := by
  unfold attemptOnce
  cases env.create wi a with
  | error e => exact ⟨[], rfl⟩
  | ok wid =>
    cases hb : truthyId wid && truthyStr w.date with
    | false =>
      refine ⟨[], ?_⟩
      simp [hb]
    | true =>
      refine ⟨[PushEv.sched wi a], ?_⟩
      simp only [hb, if_true]
      cases env.schedule wi a <;> rfl

theorem create0_mem_runWorkout (env : PushEnv) (wi : ℕ) (w : Workout) :
    PushEv.create wi 0 ∈ (runWorkout env wi w).2.2 := by
  obtain ⟨t, ht⟩ := attemptOnce_head env wi 0 w
  cases hres : attemptOnce env wi 0 w with
  | mk r evs =>
    rw [hres] at ht
    simp only [Prod.snd] at ht
    cases r with
    | ok u => simp [runWorkout, runAttempts, hres, ht]
    | error e => simp [runWorkout, runAttempts, hres, ht]

theorem create_mem_pushLoop : ∀ (plan : List Workout) (env : PushEnv) (s i : ℕ),
    i < plan.length → PushEv.create (s + i) 0 ∈ (pushLoop env s plan).2.2 := by
  intro plan
  induction plan with
  | nil => intro env s i h; simp at h
  | cons w rest ih =>
    intro env s i h
    cases i with
    | zero =>
      simp only [Nat.add_zero, pushLoop, List.mem_append]
      exact Or.inl (create0_mem_runWorkout env s w)
    | succ j =>
      have hj : j < rest.length := by
        simpa using Nat.lt_of_succ_lt_succ (by simpa using h)
      have hm := ih env (s + 1) j hj
      have hs : s + (j + 1) = (s + 1) + j := by omega
      rw [hs]
      simp only [pushLoop, List.mem_append]
      exact Or.inr hm

theorem runWorkout_allFail (env : PushEnv) (wi : ℕ) (w : Workout)
    (h0 : exFails (env.create wi 0) = true)
    (h1 : exFails (env.create wi 1) = true)
    (h2 : exFails (env.create wi 2) = true) :
    runWorkout env wi w
      = (false, [(w.name.getD ("Unknown"), errMsgOf (env.create wi 2))],
         [PushEv.create wi 0, PushEv.create wi 1, PushEv.create wi 2]) := by
  cases hc0 : env.create wi 0 with
  | ok v => rw [hc0] at h0; simp [exFails] at h0
  | error e0 =>
    cases hc1 : env.create wi 1 with
    | ok v => rw [hc1] at h1; simp [exFails] at h1
    | error e1 =>
      cases hc2 : env.create wi 2 with
      | ok v => rw [hc2] at h2; simp [exFails] at h2
      | error e2 =>
        simp [runWorkout, runAttempts, attemptOnce, hc0, hc1, hc2, errMsgOf]

theorem pushLoop_allFail : ∀ (plan : List Workout) (env : PushEnv) (s : ℕ),
    (∀ i a, i < plan.length → exFails (env.create (s + i) a) = true) →
    pushLoop env s plan
      = (0,
         (plan.enumFrom s).map
           (fun p => (p.2.name.getD ("Unknown"), errMsgOf (env.create p.1 2))),
         (plan.enumFrom s).flatMap
           (fun p => [PushEv.create p.1 0, PushEv.create p.1 1, PushEv.create p.1 2])) := by
  intro plan
  induction plan with
  | nil => intro env s h; rfl
  | cons w rest ih =>
    intro env s h
    have hw := runWorkout_allFail env s w
      (by simpa using h 0 0 (by simp)) (by simpa using h 0 1 (by simp))
      (by simpa using h 0 2 (by simp))
    have hrest := ih env (s + 1) (fun i a hi => by
      have hx := h (i + 1) a (by simpa using Nat.succ_lt_succ hi)
      rwa [show s + (i + 1) = s + 1 + i by omega] at hx)
    simp [pushLoop, hw, hrest, List.enumFrom]

theorem pushLoop_append : ∀ (pre post : List Workout) (env : PushEnv) (s : ℕ),
    pushLoop env s (pre ++ post)
      = ((pushLoop env s pre).1 + (pushLoop env (s + pre.length) post).1,
         (pushLoop env s pre).2.1 ++ (pushLoop env (s + pre.length) post).2.1,
         (pushLoop env s pre).2.2 ++ (pushLoop env (s + pre.length) post).2.2) := by
  intro pre
  induction pre with
  | nil => intro post env s; simp [pushLoop]
  | cons w rest ih =>
    intro post env s
    simp [pushLoop, ih post env (s + 1), Nat.add_assoc, Nat.add_comm 1 rest.length,
      List.append_assoc]

theorem runWorkout_falsy (env : PushEnv) (wi : ℕ) (w : Workout) (pid : Option ℤ)
    (h1 : env.create wi 0 = Except.ok pid)
    (h2 : truthyId pid = false ∨ truthyStr w.date = false) :
    runWorkout env wi w = (true, [], [PushEv.create wi 0]) := by
  have hc : (truthyId pid && truthyStr w.date) = false := by
    rcases h2 with h | h <;> simp [h]
  simp [runWorkout, runAttempts, attemptOnce, h1, hc]

/-! Claim theorems. -/

/-- C1: the spec says _parse_duration is a total function that never raises,
with unmatched input falling back to Time(600).  The code violates this: on
the input a:b, which matches none of the distance, time-unit, clock or
bare-number patterns, the colon branch calls int() outside any try block and
raises ValueError, while a colon-free unparseable input such as garbage does
fall back to Time(600). -/
theorem C1_duration_raises :
    parse_duration ("a:b") = Except.error ("ValueError")
    ∧ parse_duration ("garbage") = Except.ok (TimeCond 600) := by
  exact ⟨by decide, by decide⟩

/-- C2 counterexample: two runs over the same one-workout plan return the
same value from push_all_workouts although the (workoutName, lastError)
failure sequences they record differ, so the returned value cannot contain
the failure sequence the claim says it contains — the function returns only
the created count. -/
theorem C2_return_value_cex :
    push_all_workouts true envFailA ([⟨some ("W1"), none⟩] : List Workout)
      = push_all_workouts true envFailB ([⟨some ("W1"), none⟩] : List Workout)
    ∧ (pushOutcome envFailA ([⟨some ("W1"), none⟩] : List Workout)).2.1
      ≠ (pushOutcome envFailB ([⟨some ("W1"), none⟩] : List Workout)).2.1 := by
  exact ⟨by decide, by decide⟩

/-- C2 (amended): push_all_workouts returns only createdCount; the ordered
failure sequence is accumulated in the run outcome and reported to the
console but is not part of the return value; every workout of the plan is
processed (its first create attempt is issued) regardless of earlier
failures. -/
theorem C2_push_amended (env : PushEnv) (plan : List Workout) :
    push_all_workouts true env plan = Except.ok (pushOutcome env plan).1
    ∧ ∀ wi, wi < plan.length → PushEv.create wi 0 ∈ (pushOutcome env plan).2.2 := by
  constructor
  · rfl
  · intro wi h
    simpa using create_mem_pushLoop plan env 0 wi h

/-- Witness for C2_push_amended at a concrete environment and plan. -/
theorem C2_push_amended_wit :
    push_all_workouts true envFailA ([⟨some ("W1"), none⟩] : List Workout)
      = Except.ok (pushOutcome envFailA ([⟨some ("W1"), none⟩] : List Workout)).1
    ∧ PushEv.create 0 0 ∈ (pushOutcome envFailA ([⟨some ("W1"), none⟩] : List Workout)).2.2 :=
  ⟨(C2_push_amended envFailA ([⟨some ("W1"), none⟩] : List Workout)).1,
   (C2_push_amended envFailA ([⟨some ("W1"), none⟩] : List Workout)).2 0 (by decide)⟩

/-- C3 counterexample: with every create call failing deterministically over
a two-workout plan, push_all_workouts returns the same value under two
environments whose recorded failure messages differ, so the claimed return
of the failure list does not hold of the return value; the failures are
recorded in the run outcome instead. -/
theorem C3_return_cex :
    push_all_workouts true envFailA ([⟨some ("A"), none⟩, ⟨some ("B"), none⟩] : List Workout)
      = push_all_workouts true envFailB
          ([⟨some ("A"), none⟩, ⟨some ("B"), none⟩] : List Workout)
    ∧ (pushOutcome envFailA ([⟨some ("A"), none⟩, ⟨some ("B"), none⟩] : List Workout)).2.1
      ≠ (pushOutcome envFailB ([⟨some ("A"), none⟩, ⟨some ("B"), none⟩] : List Workout)).2.1 := by
  exact ⟨by decide, by decide⟩

/-- C3 (amended): over a plan of N workouts in which every create call fails
deterministically, push_all_workouts returns createdCount = 0 and records a
failure list of length N in plan order, pairing each workout name with the
message of its attempt-2 (final) create error; the issued remote calls are
exactly three create attempts per workout, in plan order, so no workout
failure prevents the next workout from being attempted. -/
theorem C3_all_fail_amended (env : PushEnv) (plan : List Workout)
    (h : ∀ wi a, wi < plan.length → exFails (env.create wi a) = true) :
    push_all_workouts true env plan = Except.ok 0
    ∧ (pushOutcome env plan).2.1
        = plan.enum.map (fun p => (p.2.name.getD ("Unknown"), errMsgOf (env.create p.1 2)))
    ∧ (pushOutcome env plan).2.2
        = plan.enum.flatMap
            (fun p => [PushEv.create p.1 0, PushEv.create p.1 1, PushEv.create p.1 2]) := by
  have hp := pushLoop_allFail plan env 0 (fun i a hi => by simpa using h i a hi)
  refine ⟨?_, ?_, ?_⟩
  · show Except.ok (pushLoop env 0 plan).1 = Except.ok 0
    rw [hp]
  · show (pushLoop env 0 plan).2.1 = _
    rw [hp]
    rfl
  · show (pushLoop env 0 plan).2.2 = _
    rw [hp]
    rfl

/-- Witness for C3_all_fail_amended at a concrete all-failing environment
and two-workout plan. -/
theorem C3_all_fail_wit :
    push_all_workouts true envFailA
        ([⟨some ("A"), none⟩, ⟨some ("B"), none⟩] : List Workout) = Except.ok 0
    ∧ (pushOutcome envFailA ([⟨some ("A"), none⟩, ⟨some ("B"), none⟩] : List Workout)).2.1
        = [("A", "boomA"), ("B", "boomA")]
    ∧ (pushOutcome envFailA ([⟨some ("A"), none⟩, ⟨some ("B"), none⟩] : List Workout)).2.2
        = [PushEv.create 0 0, PushEv.create 0 1, PushEv.create 0 2,
           PushEv.create 1 0, PushEv.create 1 1, PushEv.create 1 2] := by
  have h := C3_all_fail_amended envFailA
    ([⟨some ("A"), none⟩, ⟨some ("B"), none⟩] : List Workout) (fun wi a hw => rfl)
  exact ⟨h.1, h.2.1.trans (by decide), h.2.2.trans (by decide)⟩

/-- C5 counterexample: on the input 1x zone3 the word zone is immediately
followed by the digit 3, so the claim predicts HeartRateZone(3); the code
searches for the first digit anywhere in the text and returns
HeartRateZone(1). -/
theorem C5_zone_digit_cex :
    parse_target ("1x zone3") = Except.ok (HeartRateZone 1)
    ∧ HeartRateZone 1 ≠ HeartRateZone 3 := by
  exact ⟨by decide, by decide⟩

/-- C5 (amended): for a target that is not falsy, not one of open, jog,
easy, and does not match the pace pattern, _parse_target returns
HeartRateZone(d) exactly when the lowercased text contains the substring
zone and the text contains at least one digit anywhere; the zone d is the
value of the first digit occurring anywhere in the text, not necessarily
the digit following zone. -/
theorem C5_zone_amended (t : String)
    (h1 : t ≠ "") (h2 : pyLower t ∉ (["open", "jog", "easy"] : List String))
    (h3 : paceMatch (pyStripChars t.toList) = none) :
    parse_target t
      = Except.ok
          (if hasSub (t.toList.map Char.toLower) ['z','o','n','e']
              && t.toList.any Char.isDigit
           then HeartRateZone (firstDigitVal t.toList)
           else NoTargetRes) := by
  unfold parse_target
  rw [if_neg (by simp [h1, h2]), h3]
  cases hz : hasSub (t.toList.map Char.toLower) ['z','o','n','e'] with
  | false => simp [hz]
  | true =>
    cases hf : t.toList.find? Char.isDigit with
    | some c =>
      have ha : t.data.any Char.isDigit = true := any_of_find?_some hf
      have hfd : List.find? Char.isDigit t.data = some c := hf
      simp [hz, hfd, ha, firstDigitVal, -List.any_eq_true]
    | none =>
      have ha : t.data.any Char.isDigit = false := any_of_find?_none hf
      simp [hz, ha, -List.any_eq_true]

/-- Witness for C5_zone_amended at the input Zone 4. -/
theorem C5_zone_wit :
    parse_target ("Zone 4") = Except.ok (HeartRateZone 4) := by
  have h := C5_zone_amended ("Zone 4") (by decide) (by decide) (by decide)
  exact h.trans (by decide)

/-- C6 counterexample: parse of 7:30/mi yields a pace band derived from a
450-second-per-mile base (7 minutes 30 seconds), not the 300-second base the
claim states; the low bound actually produced differs from the low bound a
300-second base would produce. -/
theorem C6_pace_base_cex :
    parse_target ("7:30/mi")
      = Except.ok
          (PaceRangeRes (qmul (qdiv (mkRat 160934 100) (mkRat 450 1)) (mkRat 105 100))
            (qmul (qdiv (mkRat 160934 100) (mkRat 450 1)) (mkRat 95 100)))
    ∧ qmul (qdiv (mkRat 160934 100) (mkRat 450 1)) (mkRat 105 100)
        ≠ qmul (qdiv (mkRat 160934 100) (mkRat 300 1)) (mkRat 105 100) := by
  exact ⟨by decide, by decide⟩

/-- C6 (amended): parse of 7:30/mi returns a PaceRange whose bounds are
derived from a 450-second-per-mile base speed of 1609.34 / 450 meters per
second, low = base times 1.05 and high = base times 0.95, and the low bound
is strictly greater than the high bound in speed terms. -/
theorem C6_pace_band_amended :
    parse_target ("7:30/mi")
      = Except.ok
          (PaceRangeRes ((160934 / 100 : ℚ) / 450 * (105 / 100))
            ((160934 / 100 : ℚ) / 450 * (95 / 100)))
    ∧ (160934 / 100 : ℚ) / 450 * (95 / 100) < (160934 / 100 : ℚ) / 450 * (105 / 100) := by
  constructor
  · have h : parse_target ("7:30/mi")
        = Except.ok
            (PaceRangeRes (qmul (qdiv (mkRat 160934 100) (mkRat 450 1)) (mkRat 105 100))
              (qmul (qdiv (mkRat 160934 100) (mkRat 450 1)) (mkRat 95 100))) := by decide
    rw [h]
    simp only [qmul_eq, qdiv_eq, mkRat_eq_div']
    norm_num
  · norm_num

theorem listTruthy_map (f : Activity → Option ℚ) (acts : List Activity) :
    listTruthy (acts.map f)
      = (acts.filterMap f).filter (fun q => decide (q ≠ 0)) := by
  rw [listTruthy_eq, List.filterMap_map]
  rfl

/-- C7: analyze_fitness on an empty activity list returns has_data false and
the message only, with every numeric aggregate absent (so no division is
performed); on every non-empty list the total distance is the sum of the
distance fields and the average distance is that sum divided by the record
count. -/
theorem C7_summarize_totals :
    analyze_fitness []
      = { has_data := false, message := some ("No running activities found"),
          total_runs := none, avg_distance_km := none, total_distance_km := none,
          avg_pace_min_km := none, avg_hr := none, recent_runs := none }
    ∧ ∀ acts : List Activity, acts ≠ [] →
        (analyze_fitness acts).has_data = true
        ∧ (analyze_fitness acts).total_distance_km
            = some ((acts.map Activity.distance_km).sum)
        ∧ (analyze_fitness acts).avg_distance_km
            = some ((acts.map Activity.distance_km).sum / (acts.length : ℚ)) := by
  constructor
  · rfl
  · intro acts h
    cases acts with
    | nil => exact absurd rfl h
    | cons a rest =>
      refine ⟨rfl, ?_, ?_⟩
      · show some (qsum ((a :: rest).map Activity.distance_km)) = _
        rw [qsum_eq]
      · show some (qdiv (qsum ((a :: rest).map Activity.distance_km))
            (mkRat (a :: rest).length 1)) = _
        rw [qsum_eq, qdiv_natCast]

/-- Witness for the non-empty part of C7_summarize_totals at a one-record
list. -/
theorem C7_summarize_wit :
    ([⟨5, none, none⟩] : List Activity) ≠ []
    ∧ ((analyze_fitness [⟨5, none, none⟩]).has_data = true
       ∧ (analyze_fitness [⟨5, none, none⟩]).total_distance_km
           = some ((([⟨5, none, none⟩] : List Activity).map Activity.distance_km).sum)
       ∧ (analyze_fitness [⟨5, none, none⟩]).avg_distance_km
           = some ((([⟨5, none, none⟩] : List Activity).map Activity.distance_km).sum
               / ((([⟨5, none, none⟩] : List Activity).length : ℚ)))) :=
  ⟨by simp, C7_summarize_totals.2 [⟨5, none, none⟩] (by simp)⟩

/-- C8 counterexample: a record with a defined pace of 0 is excluded from
the pace mean.  On two records with paces 0 and 4 the code returns mean 4,
while the mean over exactly the records with a defined pace is 2. -/
theorem C8_truthy_cex :
    (analyze_fitness [⟨1, some 0, none⟩, ⟨1, some 4, none⟩]).avg_pace_min_km = some 4
    ∧ specAvgPaceDefined [⟨1, some 0, none⟩, ⟨1, some 4, none⟩] = some 2
    ∧ (analyze_fitness [⟨1, some 0, none⟩, ⟨1, some 4, none⟩]).avg_pace_min_km
        ≠ specAvgPaceDefined [⟨1, some 0, none⟩, ⟨1, some 4, none⟩] := by
  exact ⟨by decide, by decide, by decide⟩

/-- C8 (amended): on every non-empty activity list the pace mean and the
heart-rate mean are the arithmetic means over exactly the records whose
respective field is truthy, that is defined and nonzero: undefined values
are excluded, not zero-filled, and defined zero values are excluded as well;
the pace mean is absent exactly when every record has an undefined or zero
pace. -/
theorem C8_truthy_means_amended (acts : List Activity) (h : acts ≠ []) :
    ((analyze_fitness acts).avg_pace_min_km
      = (if ((acts.filterMap Activity.avg_pace_min_km).filter (fun q => decide (q ≠ 0))) = []
         then none
         else some ((((acts.filterMap Activity.avg_pace_min_km).filter
               (fun q => decide (q ≠ 0))).sum)
             / ((((acts.filterMap Activity.avg_pace_min_km).filter
               (fun q => decide (q ≠ 0))).length : ℚ)))))
    ∧ ((analyze_fitness acts).avg_hr
      = (if ((acts.filterMap Activity.avg_hr).filter (fun q => decide (q ≠ 0))) = []
         then none
         else some ((((acts.filterMap Activity.avg_hr).filter
               (fun q => decide (q ≠ 0))).sum)
             / ((((acts.filterMap Activity.avg_hr).filter
               (fun q => decide (q ≠ 0))).length : ℚ)))))
    ∧ ((analyze_fitness acts).avg_pace_min_km = none
        ↔ ∀ a ∈ acts, a.avg_pace_min_km = none ∨ a.avg_pace_min_km = some 0) := by
  cases acts with
  | nil => exact absurd rfl h
  | cons a rest =>
    have hpace : (analyze_fitness (a :: rest)).avg_pace_min_km
        = (if listTruthy ((a :: rest).map Activity.avg_pace_min_km) = [] then none
           else some (qdiv (qsum (listTruthy ((a :: rest).map Activity.avg_pace_min_km)))
             (mkRat (listTruthy ((a :: rest).map Activity.avg_pace_min_km)).length 1))) := rfl
    have hhr : (analyze_fitness (a :: rest)).avg_hr
        = (if listTruthy ((a :: rest).map Activity.avg_hr) = [] then none
           else some (qdiv (qsum (listTruthy ((a :: rest).map Activity.avg_hr)))
             (mkRat (listTruthy ((a :: rest).map Activity.avg_hr)).length 1))) := rfl
    have e1 : (analyze_fitness (a :: rest)).avg_pace_min_km
        = (if (((a :: rest).filterMap Activity.avg_pace_min_km).filter
              (fun q => decide (q ≠ 0))) = []
           then none
           else some (((((a :: rest).filterMap Activity.avg_pace_min_km).filter
                 (fun q => decide (q ≠ 0))).sum)
               / (((((a :: rest).filterMap Activity.avg_pace_min_km).filter
                 (fun q => decide (q ≠ 0))).length : ℚ)))) := by
      rw [hpace, listTruthy_map, qsum_eq, qdiv_natCast]
    have e2 : (analyze_fitness (a :: rest)).avg_hr
        = (if (((a :: rest).filterMap Activity.avg_hr).filter
              (fun q => decide (q ≠ 0))) = []
           then none
           else some (((((a :: rest).filterMap Activity.avg_hr).filter
                 (fun q => decide (q ≠ 0))).sum)
               / (((((a :: rest).filterMap Activity.avg_hr).filter
                 (fun q => decide (q ≠ 0))).length : ℚ)))) := by
      rw [hhr, listTruthy_map, qsum_eq, qdiv_natCast]
    refine ⟨e1, e2, ?_⟩
    rw [e1]
    by_cases hc : (((a :: rest).filterMap Activity.avg_pace_min_km).filter
        (fun q => decide (q ≠ 0))) = []
    · rw [if_pos hc]
      constructor
      · intro _
        exact (truthyFilter_nil_iff Activity.avg_pace_min_km (a :: rest)).1 hc
      · intro _
        rfl
    · rw [if_neg hc]
      constructor
      · intro hsome
        exact absurd hsome (by simp)
      · intro hall
        exact absurd ((truthyFilter_nil_iff Activity.avg_pace_min_km (a :: rest)).2 hall) hc

/-- Witness for C8_truthy_means_amended at a one-record list with a defined
nonzero pace. -/
theorem C8_truthy_means_wit :
    (analyze_fitness [⟨1, some 3, none⟩]).avg_pace_min_km = some 3 := by
  have h := C8_truthy_means_amended [⟨1, some 3, none⟩] (by simp)
  have hl : ((([⟨1, some 3, none⟩] : List Activity).filterMap
      Activity.avg_pace_min_km).filter (fun q => decide (q ≠ 0))) = [3] := by decide
  rw [h.1, hl]
  norm_num

theorem buildOneStep_order (i : ℕ) (s : RawStep) (es : EncodedStep)
    (h : buildOneStep i s = Except.ok es) : es.stepOrder = i + 1 := by
  unfold buildOneStep at h
  cases h1 : parse_duration (s.duration.getD ("10:00")) with
  | error e => rw [h1] at h; simp [Bind.bind, Except.bind] at h
  | ok dc =>
    rw [h1] at h
    cases h2 : parse_target (s.target.getD ("Open")) with
    | error e => rw [h2] at h; simp [Bind.bind, Except.bind] at h
    | ok tc =>
      rw [h2] at h
      simp only [Bind.bind, Except.bind, Except.ok.injEq] at h
      rw [← h]

/-- On every success path, the step encoder returns one encoded step per
input step, numbered from the starting position: the output at offset j
carries stepOrder i + j + 1. -/
theorem buildStepsFrom_order : ∀ (steps : List RawStep) (i : ℕ) (out : List EncodedStep),
    buildStepsFrom i steps = Except.ok out →
    out.length = steps.length
    ∧ ∀ j (hj : j < out.length), (out.get ⟨j, hj⟩).stepOrder = i + j + 1 := by
  intro steps
  induction steps with
  | nil =>
    intro i out h
    simp only [buildStepsFrom, Except.ok.injEq] at h
    subst h
    exact ⟨rfl, fun j hj => absurd hj (by simp)⟩
  | cons s rest ih =>
    intro i out h
    simp only [buildStepsFrom] at h
    cases h1 : buildOneStep i s with
    | error e => rw [h1] at h; simp [Bind.bind, Except.bind] at h
    | ok es =>
      rw [h1] at h
      cases h2 : buildStepsFrom (i + 1) rest with
      | error e => rw [h2] at h; simp [Bind.bind, Except.bind] at h
      | ok tail =>
        rw [h2] at h
        simp only [Bind.bind, Except.bind, Except.ok.injEq] at h
        subst h
        obtain ⟨hlen, hord⟩ := ih (i + 1) tail h2
        refine ⟨by simp [hlen], ?_⟩
        intro j hj
        cases j with
        | zero =>
          simpa using buildOneStep_order i s es h1
        | succ k =>
          have hk : k < tail.length := by simpa using hj
          have := hord k hk
          simpa [Nat.add_assoc, Nat.add_comm, Nat.add_left_comm] using this

/-- C9: the claim promises one EncodedStep per RawStep, with order equal to
the 0-based position plus 1, for every input of any length.  The renumbering
does hold on every successful build (see buildStepsFrom_order) and the empty
input yields the empty output, but the encoder is not total as the claim
requires: a single step whose duration text is a:b makes the duration parser
raise an uncaught ValueError, so no output list is produced at all. -/
theorem C9_encode_raises :
    build_workout_steps [⟨none, some ("a:b"), none⟩] = Except.error ("ValueError")
    ∧ build_workout_steps [] = Except.ok [] := by
  exact ⟨by decide, by decide⟩

/-- C10: when the create call for a workout succeeds during its first
attempt but yields a falsy identifier, or the workout has no (or a falsy)
date, no schedule call is issued for that workout, yet it counts toward
createdCount and is not recorded among the failures: in a plan decomposed
as pre ++ workout :: post, the created count gains exactly 1 for that
workout, the failure list gains nothing, and the only remote call recorded
for it is its attempt-0 create. -/
theorem C10_falsy_id_skips_schedule (env : PushEnv) (pre post : List Workout)
    (w : Workout) (pid : Option ℤ)
    (h1 : env.create pre.length 0 = Except.ok pid)
    (h2 : truthyId pid = false ∨ truthyStr w.date = false) :
    (pushOutcome env (pre ++ w :: post)).1
      = (pushOutcome env pre).1 + 1 + (pushLoop env (pre.length + 1) post).1
    ∧ (pushOutcome env (pre ++ w :: post)).2.1
      = (pushOutcome env pre).2.1 ++ (pushLoop env (pre.length + 1) post).2.1
    ∧ (pushOutcome env (pre ++ w :: post)).2.2
      = (pushOutcome env pre).2.2
        ++ PushEv.create pre.length 0 :: (pushLoop env (pre.length + 1) post).2.2 := by
  have hw := runWorkout_falsy env pre.length w pid h1 h2
  unfold pushOutcome
  rw [pushLoop_append pre (w :: post) env 0]
  simp only [Nat.zero_add]
  refine ⟨?_, ?_, ?_⟩ <;> simp [pushLoop, hw, Nat.add_assoc]

/-- Witness for C10_falsy_id_skips_schedule: a one-workout plan with a date
but a None identifier returned by create. -/
theorem C10_falsy_wit :
    (pushOutcome envOkNone [⟨some ("W1"), some ("2026-01-01")⟩]).1 = 1
    ∧ (pushOutcome envOkNone [⟨some ("W1"), some ("2026-01-01")⟩]).2.1 = []
    ∧ (pushOutcome envOkNone [⟨some ("W1"), some ("2026-01-01")⟩]).2.2
        = [PushEv.create 0 0] := by
  have h := C10_falsy_id_skips_schedule envOkNone [] []
    ⟨some ("W1"), some ("2026-01-01")⟩ none rfl (Or.inl rfl)
  exact ⟨h.1.trans (by decide), h.2.1.trans (by decide), h.2.2.trans (by decide)⟩
